import Mathlib

/-!
A shallow embedding of the `CrowdFunding` o1js smart contract
(`src/CrowdFunding.ts`) and proofs about its contribution and withdrawal
state machine.

Modelling choices:
* Public keys are abstract identities, modelled as natural numbers.
* `UInt32` / `UInt64` values (block heights, amounts, the withdrawal
  counter) are natural numbers; the o1js arithmetic operations `sub`,
  `mul` and `add` assert that the result stays in range and abort the
  whole proof otherwise, so they are modelled as checked operations in
  the `Except String` monad (`checkedSub`, `checkedMul`, `checkedAdd`).
* Each on-chain assertion (`assertLessThanOrEqual`, `assertFalse`, ...)
  becomes `uassert`, failing with the assertion's message string.
* The contract's account balance is ledger state read by the contract;
  it is carried as a field of `CampaignState` next to the five persisted
  app-state fields, and transfers update it.
* A method call is a single atomic transition: a function from the
  pre-state (plus the current block height and the authenticated sender)
  to `Except String` of the post-state, the transferred amount and the
  emitted event.  A failed assertion yields `.error msg` and, at the
  ledger level, no effect at all (`step`, `stepOut`).
-/

namespace CrowdFunding

/-- Public keys, modelled as abstract identities. -/
abbrev PublicKey := Nat

/-- The modulus of `UInt32` (block heights, the withdrawal counter). -/
def U32 : Nat := 2 ^ 32

/-- The modulus of `UInt64` (amounts). -/
def U64 : Nat := 2 ^ 64

/-- The five persisted app-state fields of the contract
(lines 28-32 of `CrowdFunding.ts`) together with the account balance the
ledger holds for the contract address. -/
structure CampaignState where
  investor : PublicKey
  deadline : Nat
  minimumInvestment : Nat
  hardCap : Nat
  withdrawnCnt : Nat
  balance : Nat
deriving Repr, DecidableEq

/-- The events a method call can emit (the `Contributed` and `Withdrawn`
structs; `timestamp` is the block height at emission). -/
inductive Event where
  | Contributed (who : PublicKey) (amount : Nat) (timestamp : Nat)
  | Withdrawn (who : PublicKey) (amount : Nat) (timestamp : Nat)
deriving Repr, DecidableEq

/-- o1js `UIntN.sub`: unsigned subtraction, asserting no underflow. -/
def checkedSub (a b : Nat) : Except String Nat :=
  if b ≤ a then .ok (a - b) else .error "underflow"

/-- o1js `UIntN.mul`: multiplication, asserting the product fits in the
type (below the modulus `m`). -/
def checkedMul (m a b : Nat) : Except String Nat :=
  if a * b < m then .ok (a * b) else .error "overflow"

/-- o1js `UIntN.add`: addition, asserting the sum fits in the type. -/
def checkedAdd (m a b : Nat) : Except String Nat :=
  if a + b < m then .ok (a + b) else .error "overflow"

/-- An on-chain assertion: succeeds when the condition holds, otherwise
the whole method call fails with the given message. -/
def uassert (c : Prop) [Decidable c] (msg : String) : Except String Unit :=
  if c then .ok () else .error msg

/-- `ensureContribution` (lines 98-112): the four preconditions of
`contribute`, checked in source order against the pre-state. -/
def ensureContribution (st : CampaignState) (currentTime : Nat)
    (sender : PublicKey) (amount : Nat) : Except String Unit := do
  uassert (currentTime ≤ st.deadline) "Deadline reached"
  uassert (¬ sender = st.investor) "Investor cannot contribute"
  uassert (st.minimumInvestment ≤ amount) "Minimum investment not met"
  uassert (st.balance < st.hardCap) "HardCap reached"

/-- `calculateAmount` (lines 114-119): clamp the requested amount to the
room left under the hard cap.  `hardCap.sub(balance)` is the checked
unsigned subtraction. -/
def calculateAmount (st : CampaignState) (amount : Nat) : Except String Nat := do
  let remaining ← checkedSub st.hardCap st.balance
  pure (if amount ≤ remaining then amount else remaining)

/-- `contribute` (lines 67-81): run the precondition checks, clamp the
amount, transfer it from the sender to the contract and emit a
`Contributed` event carrying the clamped amount.  The result is the
post-state, the transferred amount and the emitted event. -/
def contribute (st : CampaignState) (currentTime : Nat)
    (sender : PublicKey) (amount : Nat) :
    Except String (CampaignState × Nat × Event) := do
  ensureContribution st currentTime sender amount
  let canContributeAmount ← calculateAmount st amount
  pure ({ st with balance := st.balance + canContributeAmount },
        canContributeAmount,
        .Contributed sender canContributeAmount currentTime)

/-- `ensureWithdraw` plus `incrementWithdrawal` (lines 121-146): the four
withdrawal preconditions in source order, the increment of
`withdrawnCnt` (a checked `UInt32` add), and the percentage chosen from
the pre-increment counter.  `currentTime.sub(deadline)` and
`withdrawnCnt.mul(200)` are checked `UInt32` operations. -/
def ensureWithdraw (st : CampaignState) (currentTime : Nat)
    (sender : PublicKey) : Except String (CampaignState × Nat) := do
  uassert (sender = st.investor) "Only investor can withdraw"
  uassert (0 < st.balance) "No balance to withdraw"
  uassert (st.deadline ≤ currentTime) "Deadline reached"
  let blocksSinceDeadline ← checkedSub currentTime st.deadline
  let withdrawalInterval ← checkedMul U32 st.withdrawnCnt 200
  uassert (st.withdrawnCnt = 0 ∨ withdrawalInterval ≤ blocksSinceDeadline)
    "Withdrawal not allowed"
  let newCnt ← checkedAdd U32 st.withdrawnCnt 1
  pure ({ st with withdrawnCnt := newCnt },
        if st.withdrawnCnt = 0 then 20 else 10)

/-- `withdraw` (lines 83-96): run `ensureWithdraw`, compute
`hardCap.mul(percentage).div(100)` (checked `UInt64` multiplication,
truncating division), transfer that amount from the contract to the
sender and emit a `Withdrawn` event. -/
def withdraw (st : CampaignState) (currentTime : Nat)
    (sender : PublicKey) : Except String (CampaignState × Nat × Event) := do
  let r ← ensureWithdraw st currentTime sender
  let prod ← checkedMul U64 st.hardCap r.2
  let amountToWithdraw := prod / 100
  pure ({ r.1 with balance := r.1.balance - amountToWithdraw },
        amountToWithdraw,
        .Withdrawn sender amountToWithdraw currentTime)

/-- `deploy` (lines 40-65): record the deployer as investor, persist the
campaign parameters and zero the withdrawal counter.  The fresh contract
account holds no balance. -/
def deploy (sender : PublicKey) (deadline minimumInvestment hardCap : Nat) :
    CampaignState :=
  { investor := sender, deadline := deadline,
    minimumInvestment := minimumInvestment, hardCap := hardCap,
    withdrawnCnt := 0, balance := 0 }

/-- One externally callable method invocation after deployment. -/
inductive Op where
  | contribute (sender : PublicKey) (amount : Nat) (currentTime : Nat)
  | withdraw (sender : PublicKey) (currentTime : Nat)
deriving Repr, DecidableEq

/-- Run one method call on a state. -/
def exec (st : CampaignState) : Op → Except String (CampaignState × Nat × Event)
  | .contribute s a t => contribute st t s a
  | .withdraw s t => withdraw st t s

/-- The state transition of one method call: a rejected call leaves the
state exactly as it was (the ledger applies nothing of a failed proof). -/
def step (st : CampaignState) (op : Op) : CampaignState :=
  match exec st op with
  | .ok r => r.1
  | .error _ => st

/-- The observable outcome of one method call: the post-state and the
list of emitted events. -/
def stepOut (st : CampaignState) (op : Op) : CampaignState × List Event :=
  match exec st op with
  | .ok r => (r.1, [r.2.2])
  | .error _ => (st, [])

/-- Run a sequence of method calls. -/
def run (st : CampaignState) (ops : List Op) : CampaignState :=
  ops.foldl step st

/-- Normal form of `contribute`: the four checks in source order, then the
clamped transfer. -/
theorem contribute_eq (st : CampaignState) (t : Nat) (s : PublicKey) (a : Nat) :
    contribute st t s a =
      if t ≤ st.deadline then
        if s = st.investor then .error "Investor cannot contribute"
        else if st.minimumInvestment ≤ a then
          if st.balance < st.hardCap then
            .ok ({ st with balance := st.balance + min a (st.hardCap - st.balance) },
                 min a (st.hardCap - st.balance),
                 .Contributed s (min a (st.hardCap - st.balance)) t)
          else .error "HardCap reached"
        else .error "Minimum investment not met"
      else .error "Deadline reached" := by
  unfold contribute ensureContribution calculateAmount uassert checkedSub
  split_ifs with h1 h2 h3 h4 h5 <;>
    simp_all [Bind.bind, Except.bind, Pure.pure, Except.pure, Nat.min_def]
  omega

/-- Normal form of `withdraw`: the checks of `ensureWithdraw` in source
order, the possible `UInt32`/`UInt64` overflow aborts of the checked
arithmetic, then the payout chosen from the pre-increment counter. -/
theorem withdraw_eq (st : CampaignState) (t : Nat) (s : PublicKey) :
    withdraw st t s =
      if s = st.investor then
        if 0 < st.balance then
          if st.deadline ≤ t then
            if st.withdrawnCnt * 200 < U32 then
              if st.withdrawnCnt = 0 ∨ st.withdrawnCnt * 200 ≤ t - st.deadline then
                if st.withdrawnCnt + 1 < U32 then
                  if st.hardCap * (if st.withdrawnCnt = 0 then 20 else 10) < U64 then
                    .ok ({ st with
                            withdrawnCnt := st.withdrawnCnt + 1,
                            balance := st.balance -
                              st.hardCap * (if st.withdrawnCnt = 0 then 20 else 10) / 100 },
                         st.hardCap * (if st.withdrawnCnt = 0 then 20 else 10) / 100,
                         .Withdrawn s
                           (st.hardCap * (if st.withdrawnCnt = 0 then 20 else 10) / 100) t)
                  else .error "overflow"
                else .error "overflow"
              else .error "Withdrawal not allowed"
            else .error "overflow"
          else .error "Deadline reached"
        else .error "No balance to withdraw"
      else .error "Only investor can withdraw" := by
  unfold withdraw ensureWithdraw uassert checkedSub checkedMul checkedAdd
  split_ifs with h1 h2 h3 h4 h5 h6 h7 h8 <;>
    simp_all [Bind.bind, Except.bind, Pure.pure, Except.pure] <;>
    (try split_ifs) <;> (try simp_all) <;> (try omega)

/-- Characterization of a successful `contribute`: the post-state, the
transferred amount and the emitted event. -/
theorem contribute_ok_state (st : CampaignState) (t : Nat) (s : PublicKey)
    (a : Nat) (r : CampaignState × Nat × Event)
    (h : contribute st t s a = .ok r) :
    r.1 = { st with balance := st.balance + min a (st.hardCap - st.balance) } ∧
    r.2.1 = min a (st.hardCap - st.balance) ∧
    r.2.2 = Event.Contributed s (min a (st.hardCap - st.balance)) t := by
  rw [contribute_eq] at h
  split_ifs at h
  injection h with h
  subst h
  exact ⟨rfl, rfl, rfl⟩

/-- A successful `contribute` implies its four preconditions. -/
theorem contribute_ok_conds (st : CampaignState) (t : Nat) (s : PublicKey)
    (a : Nat) (r : CampaignState × Nat × Event)
    (h : contribute st t s a = .ok r) :
    t ≤ st.deadline ∧ ¬ s = st.investor ∧ st.minimumInvestment ≤ a ∧
      st.balance < st.hardCap := by
  rw [contribute_eq] at h
  split_ifs at h with h1 h2 h3 h4
  exact ⟨h1, h2, h3, h4⟩

/-- Characterization of a successful `withdraw`: the post-state, the
transferred amount and the emitted event. -/
theorem withdraw_ok_state (st : CampaignState) (t : Nat) (s : PublicKey)
    (r : CampaignState × Nat × Event)
    (h : withdraw st t s = .ok r) :
    r.1 = { st with withdrawnCnt := st.withdrawnCnt + 1,
                    balance := st.balance -
                      st.hardCap * (if st.withdrawnCnt = 0 then 20 else 10) / 100 } ∧
    r.2.1 = st.hardCap * (if st.withdrawnCnt = 0 then 20 else 10) / 100 ∧
    r.2.2 = Event.Withdrawn s
      (st.hardCap * (if st.withdrawnCnt = 0 then 20 else 10) / 100) t := by
  rw [withdraw_eq] at h
  split_ifs at h <;> (injection h with h; subst h; simp_all)

/-- A successful `withdraw` implies its four preconditions. -/
theorem withdraw_ok_conds (st : CampaignState) (t : Nat) (s : PublicKey)
    (r : CampaignState × Nat × Event)
    (h : withdraw st t s = .ok r) :
    s = st.investor ∧ 0 < st.balance ∧ st.deadline ≤ t ∧
      (st.withdrawnCnt = 0 ∨ st.withdrawnCnt * 200 ≤ t - st.deadline) := by
  rw [withdraw_eq] at h
  split_ifs at h with h1 h2 h3 h4 h5 h6 h0 h7 <;>
    first
    | exact Except.noConfusion h
    | exact ⟨h1, h2, h3, h5⟩


/-- C1: every successful contribute increases the balance by exactly
min(amount, hardCap - preBalance), so the post-balance never exceeds the
hard cap, and the Contributed event carries the clamped accepted amount,
not the requested one. -/
theorem contribute_accepts_clamped_amount (st : CampaignState) (t : Nat)
    (s : PublicKey) (a : Nat) (r : CampaignState × Nat × Event)
    (h : contribute st t s a = .ok r) :
    r.1.balance - st.balance = min a (st.hardCap - st.balance) ∧
    r.1.balance = st.balance + min a (st.hardCap - st.balance) ∧
    r.2.1 = min a (st.hardCap - st.balance) ∧
    r.1.balance ≤ st.hardCap ∧
    r.2.2 = Event.Contributed s (min a (st.hardCap - st.balance)) t := by
  obtain ⟨hst, hamt, hev⟩ := contribute_ok_state st t s a r h
  obtain ⟨-, -, -, hcap⟩ := contribute_ok_conds st t s a r h
  rw [hst]
  refine ⟨by simp, rfl, hamt, by simp; omega, hev⟩

theorem contribute_accepts_clamped_amount_witness :
    ((⟨1, 100, 10, 1000, 0, 600⟩ : CampaignState), 600,
        Event.Contributed 2 600 50).1.balance ≤ (deploy 1 100 10 1000).hardCap :=
  (contribute_accepts_clamped_amount (deploy 1 100 10 1000) 50 2 600
    (⟨1, 100, 10, 1000, 0, 600⟩, 600, .Contributed 2 600 50) (by rfl)).2.2.2.1

/-- C2: contribute succeeds iff height ≤ deadline, the sender is not the
investor, the amount meets the minimum and the balance is strictly below
the hard cap; each violation is rejected with its reason string, in
source order; in particular the investor can never contribute and any
call past the deadline fails. -/
theorem contribute_succeeds_iff (st : CampaignState) (t : Nat)
    (s : PublicKey) (a : Nat) :
    ((∃ r, contribute st t s a = .ok r) ↔
      (t ≤ st.deadline ∧ s ≠ st.investor ∧ st.minimumInvestment ≤ a ∧
        st.balance < st.hardCap)) ∧
    (st.deadline < t → contribute st t s a = .error "Deadline reached") ∧
    (t ≤ st.deadline → s = st.investor →
      contribute st t s a = .error "Investor cannot contribute") ∧
    (t ≤ st.deadline → s ≠ st.investor → a < st.minimumInvestment →
      contribute st t s a = .error "Minimum investment not met") ∧
    (t ≤ st.deadline → s ≠ st.investor → st.minimumInvestment ≤ a →
      st.hardCap ≤ st.balance →
      contribute st t s a = .error "HardCap reached") ∧
    (s = st.investor → ∀ r, contribute st t s a ≠ .ok r) ∧
    (st.deadline < t → ∀ r, contribute st t s a ≠ .ok r) := by
  refine ⟨⟨?_, ?_⟩, ?_, ?_, ?_, ?_, ?_, ?_⟩
  · rintro ⟨r, hr⟩
    exact contribute_ok_conds st t s a r hr
  · rintro ⟨h1, h2, h3, h4⟩
    rw [contribute_eq, if_pos h1, if_neg h2, if_pos h3, if_pos h4]
    exact ⟨_, rfl⟩
  · intro h
    rw [contribute_eq, if_neg (by omega)]
  · intro h1 h2
    rw [contribute_eq, if_pos h1, if_pos h2]
  · intro h1 h2 h3
    rw [contribute_eq, if_pos h1, if_neg h2, if_neg (by omega)]
  · intro h1 h2 h3 h4
    rw [contribute_eq, if_pos h1, if_neg h2, if_pos h3, if_neg (by omega)]
  · intro h2 r hr
    exact absurd ((contribute_ok_conds st t s a r hr).2.1) (by simp [h2])
  · intro h1 r hr
    exact absurd ((contribute_ok_conds st t s a r hr).1) (by omega)

theorem contribute_succeeds_iff_witness :
    (∃ r, contribute (deploy 1 100 10 1000) 50 2 600 = .ok r) ∧
    contribute (deploy 1 100 10 1000) 101 2 600 = .error "Deadline reached" ∧
    contribute (deploy 1 100 10 1000) 50 1 600 =
      .error "Investor cannot contribute" ∧
    contribute (deploy 1 100 10 1000) 50 2 5 =
      .error "Minimum investment not met" ∧
    contribute (⟨1, 100, 10, 1000, 0, 1000⟩ : CampaignState) 50 2 600 =
      .error "HardCap reached" :=
  ⟨(contribute_succeeds_iff (deploy 1 100 10 1000) 50 2 600).1.mpr
      (by refine ⟨by decide, by decide, by decide, by decide⟩),
   (contribute_succeeds_iff (deploy 1 100 10 1000) 101 2 600).2.1 (by decide),
   (contribute_succeeds_iff (deploy 1 100 10 1000) 50 1 600).2.2.1
      (by decide) rfl,
   (contribute_succeeds_iff (deploy 1 100 10 1000) 50 2 5).2.2.2.1
      (by decide) (by decide) (by decide),
   (contribute_succeeds_iff (⟨1, 100, 10, 1000, 0, 1000⟩ : CampaignState)
        50 2 600).2.2.2.2.1 (by decide) (by decide) (by decide) (by decide)⟩


theorem U32_eq : U32 = 4294967296 := by norm_num [U32]

theorem U64_eq : U64 = 18446744073709551616 := by norm_num [U64]

/-- C3 (amended): for a height in `UInt32` range and a hard cap whose
20-percent payout product fits in `UInt64` (and a counter with
`withdrawnCnt * 200` in `UInt32` range), withdraw succeeds iff the
caller is the investor, the balance is positive, the deadline has been
reached and the vesting schedule allows it; each violation is rejected
with its reason string; a non-investor or a pre-deadline call never
succeeds. -/
theorem withdraw_succeeds_iff (st : CampaignState) (t : Nat) (s : PublicKey)
    (hm : st.withdrawnCnt * 200 < U32) (hc : st.hardCap * 20 < U64) :
    ((∃ r, withdraw st t s = .ok r) ↔
      (s = st.investor ∧ 0 < st.balance ∧ st.deadline ≤ t ∧
        (st.withdrawnCnt = 0 ∨ st.withdrawnCnt * 200 ≤ t - st.deadline))) ∧
    (s ≠ st.investor → withdraw st t s = .error "Only investor can withdraw") ∧
    (s = st.investor → st.balance = 0 →
      withdraw st t s = .error "No balance to withdraw") ∧
    (s = st.investor → 0 < st.balance → t < st.deadline →
      withdraw st t s = .error "Deadline reached") ∧
    (s = st.investor → 0 < st.balance → st.deadline ≤ t →
      st.withdrawnCnt ≠ 0 → t - st.deadline < st.withdrawnCnt * 200 →
      withdraw st t s = .error "Withdrawal not allowed") ∧
    (s ≠ st.investor → ∀ r, withdraw st t s ≠ .ok r) ∧
    (t < st.deadline → ∀ r, withdraw st t s ≠ .ok r) := by
  have hU32 := U32_eq
  have hU64 := U64_eq
  refine ⟨⟨?_, ?_⟩, ?_, ?_, ?_, ?_, ?_, ?_⟩
  · rintro ⟨r, hr⟩
    exact withdraw_ok_conds st t s r hr
  · rintro ⟨h1, h2, h3, h4⟩
    have hpay : st.hardCap * (if st.withdrawnCnt = 0 then 20 else 10) < U64 := by
      split_ifs <;> omega
    rw [withdraw_eq, if_pos h1, if_pos h2, if_pos h3, if_pos hm, if_pos h4,
      if_pos (by omega), if_pos hpay]
    exact ⟨_, rfl⟩
  · intro h1
    rw [withdraw_eq, if_neg h1]
  · intro h1 h2
    rw [withdraw_eq, if_pos h1, if_neg (by omega)]
  · intro h1 h2 h3
    rw [withdraw_eq, if_pos h1, if_pos h2, if_neg (by omega)]
  · intro h1 h2 h3 h4 h5
    rw [withdraw_eq, if_pos h1, if_pos h2, if_pos h3, if_pos hm,
      if_neg (by omega)]
  · intro h1 r hr
    exact absurd ((withdraw_ok_conds st t s r hr).1) (by simp [h1])
  · intro h1 r hr
    exact absurd ((withdraw_ok_conds st t s r hr).2.2.1) (by omega)

theorem withdraw_succeeds_iff_witness :
    (∃ r, withdraw (⟨1, 100, 10, 1000, 0, 500⟩ : CampaignState) 150 1 = .ok r) ∧
    withdraw (⟨1, 100, 10, 1000, 0, 500⟩ : CampaignState) 150 2 =
      .error "Only investor can withdraw" ∧
    withdraw (⟨1, 100, 10, 1000, 1, 500⟩ : CampaignState) 200 1 =
      .error "Withdrawal not allowed" :=
  ⟨(withdraw_succeeds_iff ⟨1, 100, 10, 1000, 0, 500⟩ 150 1
      (by decide) (by decide)).1.mpr
      ⟨rfl, by decide, by decide, Or.inl rfl⟩,
   (withdraw_succeeds_iff ⟨1, 100, 10, 1000, 0, 500⟩ 150 2
      (by decide) (by decide)).2.1 (by decide),
   (withdraw_succeeds_iff ⟨1, 100, 10, 1000, 1, 500⟩ 200 1
      (by decide) (by decide)).2.2.2.2.1 rfl (by decide) (by decide)
      (by decide) (by decide)⟩

/-- C3 counterexample: at hardCap 2^63 every stated precondition of
withdraw holds (investor caller, positive balance, deadline passed,
first withdrawal), yet the call fails, because the payout product
hardCap * 20 overflows the UInt64 multiplication. -/
theorem withdraw_succeeds_iff_counterexample :
    ((⟨1, 0, 0, 2 ^ 63, 0, 5⟩ : CampaignState).investor = 1 ∧
     0 < (⟨1, 0, 0, 2 ^ 63, 0, 5⟩ : CampaignState).balance ∧
     (⟨1, 0, 0, 2 ^ 63, 0, 5⟩ : CampaignState).deadline ≤ 0 ∧
     (⟨1, 0, 0, 2 ^ 63, 0, 5⟩ : CampaignState).withdrawnCnt = 0) ∧
    withdraw (⟨1, 0, 0, 2 ^ 63, 0, 5⟩ : CampaignState) 0 1 =
      .error "overflow" := by
  exact ⟨⟨rfl, by decide, by decide, rfl⟩, by rfl⟩

/-- C4: the first successful withdraw pays exactly hardCap * 20 / 100
(truncating division), leaves withdrawnCnt = 1, and the percentage is
chosen from the pre-increment counter. -/
theorem first_withdraw_pays_twenty_percent (st : CampaignState) (t : Nat)
    (s : PublicKey) (r : CampaignState × Nat × Event)
    (h0 : st.withdrawnCnt = 0) (h : withdraw st t s = .ok r) :
    r.2.1 = st.hardCap * 20 / 100 ∧ r.1.withdrawnCnt = 1 ∧
    r.2.2 = Event.Withdrawn s (st.hardCap * 20 / 100) t := by
  obtain ⟨hst, hamt, hev⟩ := withdraw_ok_state st t s r h
  rw [hst, hamt, hev]
  simp [h0]

theorem first_withdraw_pays_twenty_percent_witness :
    ((⟨1, 100, 10, 1000, 1, 800⟩ : CampaignState), 200,
        Event.Withdrawn 1 200 150).2.1 =
      (⟨1, 100, 10, 1000, 0, 1000⟩ : CampaignState).hardCap * 20 / 100 :=
  (first_withdraw_pays_twenty_percent ⟨1, 100, 10, 1000, 0, 1000⟩ 150 1
    (⟨1, 100, 10, 1000, 1, 800⟩, 200, .Withdrawn 1 200 150) rfl (by rfl)).1

/-- C5: the N-th successful withdraw (N ≥ 2, pre-state counter N-1) pays
exactly hardCap * 10 / 100 and is permitted only once
currentHeight - deadline ≥ (N-1) * 200. -/
theorem nth_withdraw_pays_ten_percent (st : CampaignState) (t : Nat)
    (s : PublicKey) (r : CampaignState × Nat × Event) (N : Nat)
    (hN : 2 ≤ N) (h0 : st.withdrawnCnt = N - 1)
    (h : withdraw st t s = .ok r) :
    r.2.1 = st.hardCap * 10 / 100 ∧ st.deadline ≤ t ∧
    (N - 1) * 200 ≤ t - st.deadline := by
  have hne : st.withdrawnCnt ≠ 0 := by omega
  obtain ⟨hst, hamt, hev⟩ := withdraw_ok_state st t s r h
  obtain ⟨-, -, hd, hsch⟩ := withdraw_ok_conds st t s r h
  rcases hsch with h' | h'
  · exact absurd h' hne
  · rw [hamt]
    refine ⟨by simp [hne], hd, by omega⟩

theorem nth_withdraw_pays_ten_percent_witness :
    ((⟨1, 100, 10, 1000, 2, 700⟩ : CampaignState), 100,
        Event.Withdrawn 1 100 350).2.1 =
      (⟨1, 100, 10, 1000, 1, 800⟩ : CampaignState).hardCap * 10 / 100 :=
  (nth_withdraw_pays_ten_percent ⟨1, 100, 10, 1000, 1, 800⟩ 350 1
    (⟨1, 100, 10, 1000, 2, 700⟩, 100, .Withdrawn 1 100 350) 2 (by decide)
    rfl (by rfl)).1


/-- Helper: one step changes the counter by zero or one, and never
decreases it. -/
theorem step_withdrawnCnt (st : CampaignState) (op : Op) :
    (step st op).withdrawnCnt = st.withdrawnCnt ∨
      (step st op).withdrawnCnt = st.withdrawnCnt + 1 := by
  unfold step
  cases op with
  | contribute s a t =>
    cases hx : exec st (.contribute s a t) with
    | ok r =>
      left
      show r.1.withdrawnCnt = st.withdrawnCnt
      rw [(contribute_ok_state st t s a r hx).1]
    | error e => exact Or.inl rfl
  | withdraw s t =>
    cases hx : exec st (.withdraw s t) with
    | ok r =>
      right
      show r.1.withdrawnCnt = st.withdrawnCnt + 1
      rw [(withdraw_ok_state st t s r hx).1]
    | error e => exact Or.inl rfl

/-- C6: the withdrawal counter starts at 0 at deployment, is unchanged
by every successful contribute, grows by exactly 1 on every successful
withdraw, and never decreases over any sequence of calls. -/
theorem withdrawnCnt_monotone :
    (∀ s d m h, (deploy s d m h).withdrawnCnt = 0) ∧
    (∀ st t s a r, contribute st t s a = .ok r →
      r.1.withdrawnCnt = st.withdrawnCnt) ∧
    (∀ st t s r, withdraw st t s = .ok r →
      r.1.withdrawnCnt = st.withdrawnCnt + 1) ∧
    (∀ st op, (step st op).withdrawnCnt = st.withdrawnCnt ∨
      (step st op).withdrawnCnt = st.withdrawnCnt + 1) ∧
    (∀ st ops, st.withdrawnCnt ≤ (run st ops).withdrawnCnt) := by
  refine ⟨fun s d m h => rfl, ?_, ?_, step_withdrawnCnt, ?_⟩
  · intro st t s a r h
    rw [(contribute_ok_state st t s a r h).1]
  · intro st t s r h
    rw [(withdraw_ok_state st t s r h).1]
  · intro st ops
    induction ops generalizing st with
    | nil => exact Nat.le_refl _
    | cons op ops ih =>
      have h1 : st.withdrawnCnt ≤ (step st op).withdrawnCnt := by
        rcases step_withdrawnCnt st op with h | h <;> omega
      exact Nat.le_trans h1 (ih (step st op))

/-- C7: no call, successful or failed, changes investor, deadline,
minimumInvestment or hardCap; a successful contribute changes only the
balance and a successful withdraw changes only the counter and the
balance, so withdrawnCnt is the only persisted field mutated after
initialization. -/
theorem params_immutable :
    (∀ st op, (step st op).investor = st.investor ∧
      (step st op).deadline = st.deadline ∧
      (step st op).minimumInvestment = st.minimumInvestment ∧
      (step st op).hardCap = st.hardCap) ∧
    (∀ st t s a r, contribute st t s a = .ok r →
      r.1 = { st with balance := st.balance + r.2.1 }) ∧
    (∀ st t s r, withdraw st t s = .ok r →
      r.1 = { st with withdrawnCnt := st.withdrawnCnt + 1,
                      balance := st.balance - r.2.1 }) := by
  refine ⟨?_, ?_, ?_⟩
  · intro st op
    unfold step
    cases op with
    | contribute s a t =>
      cases hx : exec st (.contribute s a t) with
      | ok r =>
        show r.1.investor = st.investor ∧ r.1.deadline = st.deadline ∧
          r.1.minimumInvestment = st.minimumInvestment ∧ r.1.hardCap = st.hardCap
        rw [(contribute_ok_state st t s a r hx).1]
        exact ⟨rfl, rfl, rfl, rfl⟩
      | error e => exact ⟨rfl, rfl, rfl, rfl⟩
    | withdraw s t =>
      cases hx : exec st (.withdraw s t) with
      | ok r =>
        show r.1.investor = st.investor ∧ r.1.deadline = st.deadline ∧
          r.1.minimumInvestment = st.minimumInvestment ∧ r.1.hardCap = st.hardCap
        rw [(withdraw_ok_state st t s r hx).1]
        exact ⟨rfl, rfl, rfl, rfl⟩
      | error e => exact ⟨rfl, rfl, rfl, rfl⟩
  · intro st t s a r h
    obtain ⟨hst, hamt, -⟩ := contribute_ok_state st t s a r h
    rw [hst, hamt]
  · intro st t s r h
    obtain ⟨hst, hamt, -⟩ := withdraw_ok_state st t s r h
    rw [hst, hamt]

/-- C8: a rejected call has no observable effect: the post-state equals
the pre-state and no event is emitted. -/
theorem rejected_call_has_no_effect (st : CampaignState) (op : Op)
    (e : String) (h : exec st op = .error e) :
    stepOut st op = (st, []) ∧ step st op = st := by
  unfold stepOut step
  rw [h]
  exact ⟨rfl, rfl⟩

theorem rejected_call_has_no_effect_witness :
    stepOut (deploy 1 100 10 1000) (.contribute 2 600 101) =
      (deploy 1 100 10 1000, []) :=
  (rejected_call_has_no_effect (deploy 1 100 10 1000) (.contribute 2 600 101)
    "Deadline reached" (by rfl)).1

/-- C9: the amount a successful withdraw transfers is computed from the
hard cap and the pre-increment counter alone, never clamped by the
balance; two successful withdraws from states agreeing on those two
fields transfer the same amount, and a concrete successful withdraw
transfers more than the whole balance the campaign holds. -/
theorem withdraw_amount_ignores_balance :
    (∀ st t s r, withdraw st t s = .ok r →
      r.2.1 = st.hardCap * (if st.withdrawnCnt = 0 then 20 else 10) / 100) ∧
    (∀ st₁ st₂ t₁ t₂ s₁ s₂ r₁ r₂, withdraw st₁ t₁ s₁ = .ok r₁ →
      withdraw st₂ t₂ s₂ = .ok r₂ → st₁.hardCap = st₂.hardCap →
      st₁.withdrawnCnt = st₂.withdrawnCnt → r₁.2.1 = r₂.2.1) ∧
    (∃ r, withdraw ⟨1, 100, 10, 1000, 0, 1⟩ 100 1 = .ok r ∧
      (⟨1, 100, 10, 1000, 0, 1⟩ : CampaignState).balance < r.2.1) := by
  refine ⟨?_, ?_, ?_⟩
  · intro st t s r h
    exact (withdraw_ok_state st t s r h).2.1
  · intro st₁ st₂ t₁ t₂ s₁ s₂ r₁ r₂ h₁ h₂ hcap hcnt
    rw [(withdraw_ok_state st₁ t₁ s₁ r₁ h₁).2.1,
      (withdraw_ok_state st₂ t₂ s₂ r₂ h₂).2.1, hcap, hcnt]
  · exact ⟨(⟨1, 100, 10, 1000, 1, 0⟩, 200, .Withdrawn 1 200 100),
      ⟨by rfl, by decide⟩⟩

/-- C10: neither method can hit the underflow branch of a checked
subtraction: contribute computes hardCap - balance only after asserting
balance < hardCap, withdraw computes currentHeight - deadline only after
asserting deadline ≤ currentHeight, so neither call ever aborts with an
underflow. -/
theorem no_unsigned_underflow (st : CampaignState) (t : Nat)
    (s : PublicKey) (a : Nat) :
    contribute st t s a ≠ .error "underflow" ∧
    withdraw st t s ≠ .error "underflow" ∧
    (∀ u, ensureContribution st t s a = .ok u →
      ∃ v, calculateAmount st a = .ok v) := by
  refine ⟨?_, ?_, ?_⟩
  · rw [contribute_eq]
    split_ifs <;> simp
  · rw [withdraw_eq]
    split_ifs <;> simp
  · intro u h
    simp only [ensureContribution, uassert, Bind.bind, Except.bind] at h
    split_ifs at h with h1 h2 h3 h4
    refine ⟨if a ≤ st.hardCap - st.balance then a else st.hardCap - st.balance, ?_⟩
    simp [calculateAmount, checkedSub, Nat.le_of_lt h4, Bind.bind, Except.bind,
      Pure.pure, Except.pure]

end CrowdFunding
